import Mathlib

/-!
# Verification of `packg.import_from_source`

Shallow embedding of `src/packg/import_from_source.py`: a module-tree
enumerator (`recurse_modules`) and an import-provenance checker
(`ImportFromSourceChecker.visit_ImportFrom`, `_get_module_should_import`).

Python strings are Lean `String`s; the dotted-name operations
(`str.split(".")`, `".".join(...)`, `str.startswith`, `str.endswith`) are
embedded as executable functions over the underlying character lists.
The host interpreter's module-resolution facilities (`find_spec`,
`iter_modules`, `import_module`, `getattr`) are abstract environments
supplied as data; the recursive directory walk takes a fuel parameter and
all theorems quantify over the fuel.
-/

set_option autoImplicit false

namespace Packg

/-- Python `s.startswith(p)`: `p` is a character-wise prefix of `s`. -/
def startswithStr (s p : String) : Bool :=
  p.data.isPrefixOf s.data

/-- Python `s.endswith(p)`: `p` is a character-wise suffix of `s`. -/
def endswithStr (s p : String) : Bool :=
  p.data.isSuffixOf s.data

/-- Helper for `splitDots`: accumulates the current component (reversed). -/
def splitDotsAux : List Char → List Char → List String
  | [], acc => [String.mk acc.reverse]
  | c :: rest, acc =>
    if c = '.' then String.mk acc.reverse :: splitDotsAux rest []
    else splitDotsAux rest (c :: acc)

/-- Python `s.split(".")`: always returns at least one component;
`""` splits to `[""]`. -/
def splitDots (s : String) : List String :=
  splitDotsAux s.data []

/-- Python `".".join(components)`. -/
def joinDots : List String → String
  | [] => ""
  | [s] => s
  | s :: rest => s ++ "." ++ joinDots rest

/-- `_is_test_module(module_name)`: the name has at least two dotted
components and the second is literally `"tests"`. -/
def is_test_module (module_name : String) : Bool :=
  let components := splitDots module_name
  decide (2 ≤ components.length) && (components.getD 1 "" == "tests")

/-- The slice of a Python `ModuleSpec` that the code reads: the `origin`
file path, absent for built-ins and namespace packages. -/
structure ModuleSpecM where
  origin : Option String
  deriving DecidableEq

/-- `_is_package(module_spec)`: origin present and ending in
`"__init__.py"`. -/
def is_package (module_spec : ModuleSpecM) : Bool :=
  match module_spec.origin with
  | some o => endswithStr o "__init__.py"
  | none => false

/-- Environment for `recurse_modules`: `find_spec` models
`importlib.util.find_spec` (with "not found" as `none`) and
`iter_modules` models `pkgutil.iter_modules([path.dirname(origin)])`,
keyed by the origin path, returning `(name, ispkg)` pairs in directory
order. -/
structure RecEnv where
  find_spec : String → Option ModuleSpecM
  iter_modules : String → List (String × Bool)

/-- `_recurse_modules(module_name, ignore_tests, packages_only)`, with a
fuel bound on the recursion depth (the Python generator recurses on the
finite filesystem; every theorem below quantifies over the fuel). -/
def recurse_modules (env : RecEnv) : Nat → String → Bool → Bool → List String
  | 0, _, _, _ => []
  | fuel + 1, module_name, ignore_tests, packages_only =>
    if ignore_tests && is_test_module module_name then []
    else
      match env.find_spec module_name with
      | none => []
      | some module_spec =>
        match module_spec.origin with
        | none => []
        | some origin =>
          (if !(packages_only && !is_package module_spec) then [module_name] else [])
            ++ (env.iter_modules origin).flatMap (fun child =>
              if child.2 then
                recurse_modules env fuel (module_name ++ "." ++ child.1)
                  ignore_tests packages_only
              else if !packages_only then [module_name ++ "." ++ child.1]
              else [])

/-- Spec-side notion for C7: the modules reachable from the root through
package-child edges only (the root itself, plus, whenever a node's spec
resolves with an origin, everything reachable from its `ispkg` children),
paired with their resolved specs.  Mirrors the recursion structure of the
enumerator but records every visited node regardless of the
`packages_only` yield filter. -/
def reachableViaPackages (env : RecEnv) :
    Nat → String → Bool → List (String × Option ModuleSpecM)
  | 0, _, _ => []
  | fuel + 1, module_name, ignore_tests =>
    if ignore_tests && is_test_module module_name then []
    else
      (module_name, env.find_spec module_name) ::
        (match env.find_spec module_name with
         | none => []
         | some module_spec =>
           match module_spec.origin with
           | none => []
           | some origin =>
             (env.iter_modules origin).flatMap (fun child =>
               if child.2 then
                 reachableViaPackages env fuel (module_name ++ "." ++ child.1)
                   ignore_tests
               else []))

/-- The `packages_only` yield filter, applied to a reachable node: keep
the name exactly when the resolved spec is a package. -/
def packageYield : String × Option ModuleSpecM → Option String
  | (module_name, some module_spec) =>
    if is_package module_spec then some module_name else none
  | (_, none) => none

/-! ## The import-provenance checker -/

/-- What the checker observes about a module attribute: classes and
callables carry their declared `__module__`; everything else (constants,
instances, submodules, ...) is opaque to the provenance check. -/
inductive Attr where
  | classOrCallable (module : String) : Attr
  | other : Attr
  deriving DecidableEq

/-- A loaded Python module object, seen as its attribute dictionary. -/
structure PyModule where
  attrs : List (String × Attr)
  deriving DecidableEq

/-- `getattr(m, name)` / `hasattr(m, name)`: first binding of `name`. -/
def getattr (m : PyModule) (name : String) : Option Attr :=
  (m.attrs.find? (fun p => p.1 == name)).map (·.2)

/-- Environment for the checker's dynamic imports:
`importlib.import_module`, with `ModuleNotFoundError` as `none`. -/
structure PyEnv where
  import_module : String → Option PyModule

/-- One `logging.warning` emitted on a provenance mismatch, recording the
alias name, the module the statement imported from, and the computed
canonical source. -/
structure Warning where
  alias_name : String
  imported_from : String
  should_import_from : String
  deriving DecidableEq

/-- Observable outcome of `visit_ImportFrom` on one `ImportFrom` node. -/
inductive VisitResult where
  /-- `ValueError`: relative import with level ≥ 2. -/
  | valueError : VisitResult
  /-- `assert node.module is not None` failed (level 0, no module). -/
  | assertionError : VisitResult
  /-- Returned at the scope filter: the statement imports from outside
  the top-level module. -/
  | skipped : VisitResult
  /-- Returned from the `ModuleNotFoundError` handler because an
  ignore-list entry is a prefix of the module name. -/
  | ignoredMissing : VisitResult
  /-- A `ModuleNotFoundError` for `missing` propagated to the caller,
  after `warnings` had already been logged. -/
  | raised (warnings : List Warning) (missing : String) : VisitResult
  /-- Normal return after logging `warnings`. -/
  | ok (warnings : List Warning) : VisitResult
  deriving DecidableEq

/-- The construction-time state of `_ImportFromSourceChecker`. -/
structure Checker where
  _module : String
  _top_level_module : String
  _module_list_to_ignore_not_found : Option (List String)

/-- Environment for `importlib.util.find_spec` at checker construction. -/
structure FsEnv where
  find_spec : String → Option ModuleSpecM

/-- The `is_pkg` test of `_ImportFromSourceChecker.__init__`:
`module_spec is not None and module_spec.origin is not None and
module_spec.origin.endswith("__init__.py")`. -/
def spec_is_package : Option ModuleSpecM → Bool
  | some s => is_package s
  | none => false

/-- `_ImportFromSourceChecker.__init__`: the working module is `module`
itself if its spec resolves to a package `__init__` origin, else the
dotted name with the last component dropped; the top-level module is the
first dotted component of the working module. -/
def ImportFromSourceChecker (env : FsEnv) (module : String)
    (module_list_to_ignore_not_found : Option (List String)) : Checker :=
  let is_pkg := spec_is_package (env.find_spec module)
  let working := if is_pkg then module else joinDots (splitDots module).dropLast
  { _module := working
    _top_level_module := (splitDots working).getD 0 ""
    _module_list_to_ignore_not_found := module_list_to_ignore_not_found }

/-- The AST `ImportFrom` node: `level` (0 = absolute), optional source
module string, and the alias names in order. -/
structure ImportFromNode where
  level : Nat
  module : Option String
  names : List String

/-- Steps (1)-(3) of `visit_ImportFrom`'s module resolution: absolute
imports take the node's module (which must be present), `from . import`
takes the working module, `from .sub import` appends to it.  `none`
models the assertion failure for an absolute import without a module. -/
def resolveModuleToImport (self : Checker) (node : ImportFromNode) :
    Option String :=
  if node.level = 0 then node.module
  else
    match node.module with
    | none => some self._module
    | some m => some (self._module ++ "." ++ m)

/-- The accumulation loop of `_get_module_should_import`: extend `result`
with each component, stopping before the first component that starts with
`"_"` while `self_module` does not start with the join of the components
accumulated so far. -/
def shouldImportAux (self_module : String) (result : List String) :
    List String → List String
  | [] => result
  | component :: rest =>
    if startswithStr component "_"
        && !(startswithStr self_module (joinDots result)) then result
    else shouldImportAux self_module (result ++ [component]) rest

/-- `_get_module_should_import(module_to_import)` of a checker with
working module `self_module`. -/
def get_module_should_import (self_module module_to_import : String) :
    String :=
  joinDots (shouldImportAux self_module [] (splitDots module_to_import))

/-- The alias loop of `visit_ImportFrom`: for each alias, look it up on
the loaded module; if absent, skip `*` or import the submodule
`<module_to_import>.<name>` (a failure there aborts with the missing
name, uncaught); a class/callable attribute whose canonical path differs
from `module_to_import` logs a warning.  Returns the warnings in order
and, if the loop aborted, the missing submodule name. -/
def processAliases (env : PyEnv) (self : Checker) (module_to_import : String)
    (m : PyModule) : List String → List Warning × Option String
  | [] => ([], none)
  | name :: rest =>
    match getattr m name with
    | none =>
      if name == "*" then processAliases env self module_to_import m rest
      else
        match env.import_module (module_to_import ++ "." ++ name) with
        | none => ([], some (module_to_import ++ "." ++ name))
        | some _ => processAliases env self module_to_import m rest
    | some Attr.other => processAliases env self module_to_import m rest
    | some (Attr.classOrCallable attribute_module) =>
      let should_import_from :=
        get_module_should_import self._module attribute_module
      if module_to_import ≠ should_import_from then
        let (ws, missing) := processAliases env self module_to_import m rest
        ({ alias_name := name, imported_from := module_to_import,
           should_import_from := should_import_from } :: ws, missing)
      else processAliases env self module_to_import m rest

/-- Steps (4)-(8) of `visit_ImportFrom`, after the scope filter: load the
resolved module; on `ModuleNotFoundError` consult the ignore-list
(any entry that is a string prefix of the module name excuses the
failure, otherwise it is re-raised); on success run the alias loop. -/
def loadAndCheck (env : PyEnv) (self : Checker) (module_to_import : String)
    (names : List String) : VisitResult :=
  match env.import_module module_to_import with
  | none =>
    match self._module_list_to_ignore_not_found with
    | some ignore_list =>
      if ignore_list.any (fun p => startswithStr module_to_import p) then
        VisitResult.ignoredMissing
      else VisitResult.raised [] module_to_import
    | none => VisitResult.raised [] module_to_import
  | some m =>
    match processAliases env self module_to_import m names with
    | (ws, some missing) => VisitResult.raised ws missing
    | (ws, none) => VisitResult.ok ws

/-- `visit_ImportFrom(node)`: reject relative levels ≥ 2 with
`ValueError`; resolve the module to import; skip statements whose target
does not start (as a raw string) with the top-level module; otherwise
load and check. -/
def visit_ImportFrom (env : PyEnv) (self : Checker)
    (node : ImportFromNode) : VisitResult :=
  if 2 ≤ node.level then VisitResult.valueError
  else
    match resolveModuleToImport self node with
    | none => VisitResult.assertionError
    | some module_to_import =>
      if !(startswithStr module_to_import self._top_level_module) then
        VisitResult.skipped
      else loadAndCheck env self module_to_import node.names

/-! ## Spec-side characterization of the canonical-path computation -/

/-- Spec-side condition for C2: accumulation over the components `cs`
stops before index `i` exactly when component `i` starts with `"_"` and
`self_module` does not start with the dotted join of the components
accumulated so far (`acc` followed by the first `i` components). -/
def blockedAt (self_module : String) (acc cs : List String) (i : Nat) : Bool :=
  startswithStr (cs.getD i "") "_"
    && !(startswithStr self_module (joinDots (acc ++ cs.take i)))

/-! ## Concrete instances used for counterexamples and witnesses

Each instance models a small but realistic on-disk package layout. -/

/-- A package `pkg` whose directory holds a single plain file
`tests.py` (a non-package child named `tests`). -/
def c1Env : RecEnv :=
  ⟨fun n => if n = "pkg" then some ⟨some "/site/pkg/__init__.py"⟩ else none,
   fun o => if o = "/site/pkg/__init__.py" then [("tests", false)] else []⟩

/-- Resolver for a plain module `pkg/other/user.py` under analysis. -/
def c3FsEnv : FsEnv :=
  ⟨fun n => if n = "pkg.other.user"
    then some ⟨some "/site/pkg/other/user.py"⟩ else none⟩

/-- Importer knowing `pkg.sub._impl`, whose attribute `Klass` is a class
declaring `__module__ = "pkg.sub._impl"` (defined right there). -/
def c3PyEnv : PyEnv :=
  ⟨fun n => if n = "pkg.sub._impl"
    then some ⟨[("Klass", Attr.classOrCallable "pkg.sub._impl")]⟩ else none⟩

/-- Importer in which no module can be loaded. -/
def c5PyEnv : PyEnv := ⟨fun _ => none⟩

/-- Resolver for a plain module `pkg/user.py` under analysis. -/
def c6FsEnv : FsEnv :=
  ⟨fun n => if n = "pkg.user" then some ⟨some "/site/pkg/user.py"⟩ else none⟩

/-- Importer knowing `pkg.mod`, a module carrying an attribute literally
named `*` (settable in Python via `globals()["*"] = ...`) that is a class
defined in `pkg.other`. -/
def c6PyEnv : PyEnv :=
  ⟨fun n => if n = "pkg.mod"
    then some ⟨[("*", Attr.classOrCallable "pkg.other")]⟩ else none⟩

/-- A package `pkg` with a non-package child `util.py` listed before a
package child `sub/`. -/
def c7Env : RecEnv :=
  ⟨fun n =>
    if n = "pkg" then some ⟨some "/site/pkg/__init__.py"⟩
    else if n = "pkg.sub" then some ⟨some "/site/pkg/sub/__init__.py"⟩
    else none,
   fun o => if o = "/site/pkg/__init__.py" then [("util", false), ("sub", true)]
    else []⟩

/-- Importer knowing only `pkg.mod`, an empty module: the nested import
of `pkg.mod.sub` fails. -/
def c8PyEnv : PyEnv :=
  ⟨fun n => if n = "pkg.mod" then some ⟨[]⟩ else none⟩

/-- Resolver for a plain module `pkg/user.py` under analysis. -/
def c9FsEnv : FsEnv :=
  ⟨fun n => if n = "pkg.user" then some ⟨some "/site/pkg/user.py"⟩ else none⟩

/-- Importer in which no module can be loaded. -/
def c9PyEnv : PyEnv := ⟨fun _ => none⟩

/-- Resolver for a single-file, top-level module `mod.py`. -/
def c10FsEnv : FsEnv :=
  ⟨fun n => if n = "mod" then some ⟨some "/site/mod.py"⟩ else none⟩

/-- Importer in which no module can be loaded. -/
def c10PyEnv : PyEnv := ⟨fun _ => none⟩

/-! ## Lemmas on splitting and joining dotted names -/

theorem String_mk_data (s : String) : String.mk s.data = s := rfl

theorem splitDotsAux_ne_nil : ∀ (l acc : List Char), splitDotsAux l acc ≠ []
  | [], acc => by simp [splitDotsAux]
  | c :: rest, acc => by
    rw [splitDotsAux]
    split
    · simp
    · exact splitDotsAux_ne_nil rest (c :: acc)

theorem splitDots_ne_nil (s : String) : splitDots s ≠ [] :=
  splitDotsAux_ne_nil s.data []

theorem splitDotsAux_no_dot :
    ∀ (l : List Char), (∀ c ∈ l, c ≠ '.') →
      ∀ acc, splitDotsAux l acc = [String.mk (acc.reverse ++ l)]
  | [], _, acc => by simp [splitDotsAux]
  | c :: rest, h, acc => by
    rw [splitDotsAux, if_neg (h c (by simp)),
      splitDotsAux_no_dot rest (fun x hx => h x (by simp [hx])) (c :: acc)]
    simp

theorem mem_splitDotsAux_no_dot :
    ∀ (l acc : List Char), (∀ c ∈ acc, c ≠ '.') →
      ∀ s ∈ splitDotsAux l acc, ∀ c ∈ s.data, c ≠ '.'
  | [], acc, hacc, s, hs => by
    rw [splitDotsAux] at hs
    simp only [List.mem_singleton] at hs
    subst hs
    intro c hc
    exact hacc c (by simpa using hc)
  | d :: rest, acc, hacc, s, hs => by
    rw [splitDotsAux] at hs
    by_cases hd : d = '.'
    · rw [if_pos hd] at hs
      rcases List.mem_cons.mp hs with h1 | h2
      · subst h1
        intro c hc
        exact hacc c (by simpa using hc)
      · exact mem_splitDotsAux_no_dot rest [] (by simp) s h2
    · rw [if_neg hd] at hs
      exact mem_splitDotsAux_no_dot rest (d :: acc)
        (fun c hc => by
          rcases List.mem_cons.mp hc with h1 | h2
          · simpa [h1] using hd
          · exact hacc c h2) s hs

theorem splitDotsAux_append :
    ∀ (l₁ : List Char), (∀ c ∈ l₁, c ≠ '.') → ∀ (l₂ : List Char) (acc : List Char),
      splitDotsAux (l₁ ++ l₂) acc = splitDotsAux l₂ (l₁.reverse ++ acc)
  | [], _, l₂, acc => by simp
  | c :: t, h, l₂, acc => by
    rw [List.cons_append, splitDotsAux, if_neg (h c (by simp)),
      splitDotsAux_append t (fun x hx => h x (by simp [hx])) l₂ (c :: acc)]
    simp

theorem splitDots_joinDots :
    ∀ (r : List String), r ≠ [] → (∀ s ∈ r, ∀ c ∈ s.data, c ≠ '.') →
      splitDots (joinDots r) = r
  | [], hne, _ => absurd rfl hne
  | [s], _, h => by
    show splitDots s = [s]
    rw [splitDots, splitDotsAux_no_dot s.data (h s (by simp)) []]
    simp
  | s :: s' :: rest, _, h => by
    show splitDots (s ++ "." ++ joinDots (s' :: rest)) = s :: s' :: rest
    have hdata : (s ++ "." ++ joinDots (s' :: rest)).data
        = s.data ++ ('.' :: (joinDots (s' :: rest)).data) := by
      simp [String.data_append]
    have hrec : splitDotsAux (joinDots (s' :: rest)).data [] = s' :: rest :=
      splitDots_joinDots (s' :: rest) (by simp)
        (fun t ht => h t (List.mem_cons_of_mem s ht))
    rw [splitDots, hdata,
      splitDotsAux_append s.data (h s (by simp)) _ [],
      splitDotsAux, if_pos rfl, hrec]
    simp [String_mk_data]

/-! ## Lemmas on the accumulation loop of `_get_module_should_import` -/

theorem startswithStr_empty (s : String) : startswithStr s "" = true := by
  simp [startswithStr]

theorem blockedAt_cons_zero (m : String) (acc : List String) (c : String)
    (rest : List String) :
    blockedAt m acc (c :: rest) 0
      = (startswithStr c "_" && !(startswithStr m (joinDots acc))) := by
  simp [blockedAt]

theorem blockedAt_cons_succ (m : String) (acc : List String) (c : String)
    (rest : List String) (j : Nat) :
    blockedAt m acc (c :: rest) (j + 1) = blockedAt m (acc ++ [c]) rest j := by
  unfold blockedAt
  rw [List.getD_cons_succ, List.take_succ_cons, List.append_cons]

theorem shouldImportAux_char (m : String) :
    ∀ (cs acc : List String), ∃ k, k ≤ cs.length ∧
      shouldImportAux m acc cs = acc ++ cs.take k ∧
      (∀ j, j < k → blockedAt m acc cs j = false) ∧
      (k < cs.length → blockedAt m acc cs k = true)
  | [], acc => ⟨0, by simp [shouldImportAux]⟩
  | c :: rest, acc => by
    by_cases hb : (startswithStr c "_" && !(startswithStr m (joinDots acc))) = true
    · refine ⟨0, by simp, by simp [shouldImportAux, hb], by simp, fun _ => ?_⟩
      rw [blockedAt_cons_zero]
      exact hb
    · obtain ⟨k, hk, heq, hmin, hstop⟩ := shouldImportAux_char m rest (acc ++ [c])
      refine ⟨k + 1, by simpa using hk, ?_, ?_, ?_⟩
      · rw [shouldImportAux, if_neg hb, heq, List.take_succ_cons]
        simp
      · intro j hj
        cases j with
        | zero => rw [blockedAt_cons_zero]; simpa using hb
        | succ j => rw [blockedAt_cons_succ]; exact hmin j (by omega)
      · intro hlt
        rw [blockedAt_cons_succ]
        exact hstop (by simpa using hlt)

theorem shouldImportAux_all_good (m : String) :
    ∀ (cs acc : List String),
      (∀ j, j < cs.length → blockedAt m acc cs j = false) →
      shouldImportAux m acc cs = acc ++ cs
  | [], acc, _ => by simp [shouldImportAux]
  | c :: rest, acc, hall => by
    have h0 := hall 0 (by simp)
    rw [blockedAt_cons_zero] at h0
    rw [shouldImportAux, if_neg (by simp [h0]),
      shouldImportAux_all_good m rest (acc ++ [c])
        (fun j hj => by
          have := hall (j + 1) (by simpa using hj)
          rwa [blockedAt_cons_succ] at this)]
    simp

theorem blockedAt_take (m : String) (cs : List String) (k j : Nat)
    (hj : j < k) :
    blockedAt m [] (cs.take k) j = blockedAt m [] cs j := by
  rw [blockedAt, blockedAt, List.take_take, min_eq_left (by omega),
    List.getD_eq_getElem?_getD, List.getD_eq_getElem?_getD,
    List.getElem?_take, if_pos hj]

/-! ## Lemmas on the module enumerator -/

theorem recurse_modules_test_root (env : RecEnv) (fuel : Nat) (n : String)
    (po : Bool) (h : is_test_module n = true) :
    recurse_modules env fuel n true po = [] := by
  cases fuel with
  | zero => rfl
  | succ fuel => rw [recurse_modules, if_pos (by simp [h])]

theorem recurse_modules_packages_only_no_test (env : RecEnv) :
    ∀ (fuel : Nat) (n : String),
      ∀ m ∈ recurse_modules env fuel n true true, is_test_module m = false
  | 0, n => by simp [recurse_modules]
  | fuel + 1, n => by
    intro m hm
    rw [recurse_modules] at hm
    by_cases ht : is_test_module n = true
    · rw [if_pos (by simp [ht])] at hm
      simp at hm
    · rw [if_neg (by simp [ht])] at hm
      rcases hspec : env.find_spec n with _ | s
      · simp [hspec] at hm
      · simp only [hspec] at hm
        rcases horig : s.origin with _ | o
        · simp [horig] at hm
        · simp only [horig] at hm
          rcases List.mem_append.mp hm with h1 | h2
          · have hmn : m = n := by
              by_cases hp : (!(true && !is_package s)) = true
              · rw [if_pos hp] at h1; simpa using h1
              · rw [if_neg hp] at h1; simp at h1
            rw [hmn]
            simpa using ht
          · rcases List.mem_flatMap.mp h2 with ⟨child, _, hmc⟩
            by_cases hcp : child.2 = true
            · rw [if_pos hcp] at hmc
              exact recurse_modules_packages_only_no_test env fuel
                (n ++ "." ++ child.1) m hmc
            · rw [if_neg hcp] at hmc
              simp at hmc

theorem reachableViaPackages_find_spec (env : RecEnv) :
    ∀ (fuel : Nat) (n : String) (it : Bool) (p : String × Option ModuleSpecM),
      p ∈ reachableViaPackages env fuel n it → p.2 = env.find_spec p.1
  | 0, n, it, p => by simp [reachableViaPackages]
  | fuel + 1, n, it, p => by
    intro hp
    rw [reachableViaPackages] at hp
    by_cases ht : (it && is_test_module n) = true
    · rw [if_pos ht] at hp; simp at hp
    · rw [if_neg ht] at hp
      rcases List.mem_cons.mp hp with h1 | h2
      · rw [h1]
      · rcases hspec : env.find_spec n with _ | s
        · simp [hspec] at h2
        · simp only [hspec] at h2
          rcases horig : s.origin with _ | o
          · simp [horig] at h2
          · simp only [horig] at h2
            rcases List.mem_flatMap.mp h2 with ⟨child, _, hpc⟩
            by_cases hcp : child.2 = true
            · rw [if_pos hcp] at hpc
              exact reachableViaPackages_find_spec env fuel
                (n ++ "." ++ child.1) it p hpc
            · rw [if_neg hcp] at hpc
              simp at hpc

theorem recurse_modules_packages_only_eq (env : RecEnv) :
    ∀ (fuel : Nat) (n : String) (it : Bool),
      recurse_modules env fuel n it true
        = (reachableViaPackages env fuel n it).filterMap packageYield
  | 0, _, _ => rfl
  | fuel + 1, n, it => by
    rw [recurse_modules, reachableViaPackages]
    by_cases ht : (it && is_test_module n) = true
    · rw [if_pos ht, if_pos ht]
      rfl
    · rw [if_neg ht, if_neg ht]
      rcases hspec : env.find_spec n with _ | s
      · simp [packageYield]
      · simp only
        rcases horig : s.origin with _ | o
        · simp only [horig]
          rw [List.filterMap_cons_none (by simp [packageYield, is_package, horig])]
          simp
        · simp only [horig]
          have hchild : ∀ child : String × Bool,
              (if child.2 then
                recurse_modules env fuel (n ++ "." ++ child.1) it true
               else if !true then [n ++ "." ++ child.1] else [])
              = (if child.2 then
                  reachableViaPackages env fuel (n ++ "." ++ child.1) it
                 else []).filterMap packageYield := by
            intro child
            by_cases hc : child.2 = true
            · rw [if_pos hc, if_pos hc,
                recurse_modules_packages_only_eq env fuel (n ++ "." ++ child.1) it]
            · rw [if_neg hc, if_neg hc]
              simp
          by_cases hp : is_package s = true
          · rw [List.filterMap_cons_some
                (show packageYield (n, some s) = some n by simp [packageYield, hp]),
              if_pos (by simp [hp]), List.filterMap_flatMap,
              List.singleton_append]
            exact congrArg (fun x => n :: x) (congrArg _ (funext hchild))
          · rw [List.filterMap_cons_none (by simp [packageYield, hp]),
              if_neg (by simp [hp]), List.filterMap_flatMap,
              List.nil_append]
            exact congrArg _ (funext hchild)

/-! ## Lemmas on the visitor -/

theorem loadAndCheck_ne_skipped (env : PyEnv) (self : Checker)
    (module_to_import : String) (names : List String) :
    loadAndCheck env self module_to_import names ≠ VisitResult.skipped := by
  rcases he : env.import_module module_to_import with _ | m
  · rcases hig : self._module_list_to_ignore_not_found with _ | lst
    · simp [loadAndCheck, he, hig]
    · by_cases h : (lst.any fun p => startswithStr module_to_import p) = true <;>
        simp [loadAndCheck, he, hig, h]
  · rcases hpa : processAliases env self module_to_import m names with ⟨ws, _ | missing⟩ <;>
      simp [loadAndCheck, he, hpa]

theorem visit_eq_loadAndCheck (env : PyEnv) (self : Checker)
    (node : ImportFromNode) (module_to_import : String)
    (hlevel : node.level < 2)
    (hres : resolveModuleToImport self node = some module_to_import)
    (hscope : startswithStr module_to_import self._top_level_module = true) :
    visit_ImportFrom env self node
      = loadAndCheck env self module_to_import node.names := by
  rw [visit_ImportFrom, if_neg (by omega)]
  simp only [hres]
  rw [if_neg (by simp [hscope])]

/-! ## Claims -/

/-- C1 (as stated, refuted): `recurse_modules("pkg", ignore_tests=True,
packages_only=False)` on a package `pkg` whose directory holds a plain
file `tests.py` yields the module `pkg.tests`, whose second dotted
component is literally `tests`, even though the root `pkg` is an
ancestor of it.  The `ignore_tests` filter runs only at the entry of
recursive calls, and non-package children are yielded directly without
it. -/
theorem c1_ignore_tests_counterexample :
    is_test_module "pkg.tests" = true ∧
    startswithStr "pkg.tests" ("pkg" ++ ".") = true ∧
    c1Env.iter_modules "/site/pkg/__init__.py" = [("tests", false)] ∧
    "pkg.tests" ∈ recurse_modules c1Env 1 "pkg" true false := by decide

/-- C1 (amended): with `ignore_tests=True` the test-module exclusion
applies exactly to the recursion roots: a root whose second dotted
component is `tests` produces nothing at all (so the subtree of any test
module reached by recursion — the root or a package child — is never
recursed into), and with `packages_only=True` no yielded module is a
test module.  (A non-package child whose qualified name has second
component `tests` is still yielded when `packages_only=False`, as the
counterexample shows.) -/
theorem c1_ignore_tests_amended (env : RecEnv) (fuel : Nat) (n : String)
    (po : Bool) :
    (is_test_module n = true → recurse_modules env fuel n true po = []) ∧
    (∀ m ∈ recurse_modules env fuel n true true, is_test_module m = false) :=
  ⟨recurse_modules_test_root env fuel n po,
   recurse_modules_packages_only_no_test env fuel n⟩

/-- C1 witness: the amended theorem at the concrete layout `c1Env`:
a test root yields nothing, and the module yielded in `packages_only`
mode is not a test module. -/
theorem c1_ignore_tests_amended_witness :
    (is_test_module "pkg.tests" = true ∧
     recurse_modules c1Env 1 "pkg.tests" true false = []) ∧
    ("pkg" ∈ recurse_modules c1Env 1 "pkg" true true ∧
     is_test_module "pkg" = false) :=
  ⟨⟨by decide, (c1_ignore_tests_amended c1Env 1 "pkg.tests" false).1 (by decide)⟩,
   ⟨by decide, (c1_ignore_tests_amended c1Env 1 "pkg" true).2 "pkg" (by decide)⟩⟩

/-- C2 (confirmed): for every working module `m` and defining module
`s`, `_get_module_should_import` returns the dotted join of the first
`k` components of `s`, where `k` is the position of the first component
that starts with an underscore while the working module does not start
with the join of the components accumulated before it (`blockedAt`), or
the number of components when no component is blocked. -/
theorem c2_should_import_accumulation (m s : String) (k : Nat)
    (hle : k ≤ (splitDots s).length)
    (hmin : ∀ j, j < k → blockedAt m [] (splitDots s) j = false)
    (hstop : k < (splitDots s).length →
      blockedAt m [] (splitDots s) k = true) :
    get_module_should_import m s = joinDots ((splitDots s).take k) := by
  obtain ⟨k', hk', heq, hmin', hstop'⟩ := shouldImportAux_char m (splitDots s) []
  have hkk : k = k' := by
    rcases Nat.lt_trichotomy k k' with h | h | h
    · have hb := hmin' k h
      rw [hstop (by omega)] at hb
      simp at hb
    · exact h
    · have hb := hmin k' h
      rw [hstop' (by omega)] at hb
      simp at hb
  rw [get_module_should_import, heq, List.nil_append, hkk]

/-- C2 witness: with working module `pkg.other` and defining module
`pkg.sub._impl`, the accumulation stops before component 2 (`_impl`),
giving `pkg.sub`. -/
theorem c2_should_import_accumulation_witness :
    (2 ≤ (splitDots "pkg.sub._impl").length ∧
     (∀ j, j < 2 → blockedAt "pkg.other" [] (splitDots "pkg.sub._impl") j = false) ∧
     (2 < (splitDots "pkg.sub._impl").length →
       blockedAt "pkg.other" [] (splitDots "pkg.sub._impl") 2 = true)) ∧
    get_module_should_import "pkg.other" "pkg.sub._impl"
      = joinDots ((splitDots "pkg.sub._impl").take 2) :=
  ⟨⟨by decide, by decide, by decide⟩,
   c2_should_import_accumulation "pkg.other" "pkg.sub._impl" 2
     (by decide) (by decide) (by decide)⟩

/-- C3 (as stated, refuted): a module under `pkg/other/` importing
`Klass` from `pkg.sub._impl` — exactly the module where `Klass` is
declared (`Klass.__module__ = "pkg.sub._impl"`) — still receives a
ProvenanceMismatch warning, because the canonical path truncates the
private component `_impl` for importers outside `pkg.sub`.  So "imports
from exactly the defining module" does not imply "no warning". -/
theorem c3_canonical_counterexample :
    getattr ⟨[("Klass", Attr.classOrCallable "pkg.sub._impl")]⟩ "Klass"
        = some (Attr.classOrCallable "pkg.sub._impl") ∧
    c3PyEnv.import_module "pkg.sub._impl"
        = some ⟨[("Klass", Attr.classOrCallable "pkg.sub._impl")]⟩ ∧
    visit_ImportFrom c3PyEnv (ImportFromSourceChecker c3FsEnv "pkg.other.user" none)
        ⟨0, some "pkg.sub._impl", ["Klass"]⟩
      = VisitResult.ok [⟨"Klass", "pkg.sub._impl", "pkg.sub"⟩] := by decide

/-- C3 (amended): the canonical path computation is idempotent
(`_get_module_should_import` applied to its own output returns it
unchanged), and no warning is emitted for an alias whose actual import
source equals the canonical path of its declared defining module — not
merely the defining module itself. -/
theorem c3_canonical_amended :
    (∀ m s, get_module_should_import m (get_module_should_import m s)
        = get_module_should_import m s) ∧
    (∀ (env : PyEnv) (self : Checker) (module_to_import : String)
        (m : PyModule) (name : String) (rest : List String)
        (attribute_module : String),
      getattr m name = some (Attr.classOrCallable attribute_module) →
      get_module_should_import self._module attribute_module
        = module_to_import →
      processAliases env self module_to_import m (name :: rest)
        = processAliases env self module_to_import m rest) := by
  constructor
  · intro m s
    obtain ⟨k, hk, heq, hmin, hstop⟩ := shouldImportAux_char m (splitDots s) []
    rw [List.nil_append] at heq
    have hnodot : ∀ t ∈ splitDots s, ∀ c ∈ t.data, c ≠ '.' :=
      fun t ht => mem_splitDotsAux_no_dot s.data [] (by simp) t ht
    have hk0 : k ≠ 0 := by
      intro h0
      rcases hcse : splitDots s with _ | ⟨c, rest⟩
      · exact splitDots_ne_nil s hcse
      · have hb := hstop (by rw [hcse, h0]; simp)
        rw [h0, hcse, blockedAt_cons_zero] at hb
        simp [startswithStr_empty, joinDots] at hb
    have hr_ne : (splitDots s).take k ≠ [] := by
      rcases hcse : splitDots s with _ | ⟨c, rest⟩
      · exact absurd hcse (splitDots_ne_nil s)
      · rcases k with _ | k
        · exact absurd rfl hk0
        · simp [List.take_succ_cons]
    have hsplit : splitDots (joinDots ((splitDots s).take k))
        = (splitDots s).take k :=
      splitDots_joinDots _ hr_ne
        (fun t ht => hnodot t (List.take_subset k (splitDots s) ht))
    have hgood : ∀ j, j < ((splitDots s).take k).length →
        blockedAt m [] ((splitDots s).take k) j = false := by
      intro j hj
      have hjk : j < k := by
        rw [List.length_take] at hj
        omega
      rw [blockedAt_take m (splitDots s) k j hjk]
      exact hmin j hjk
    have hgs : get_module_should_import m s
        = joinDots ((splitDots s).take k) := by
      rw [get_module_should_import, heq]
    rw [hgs, get_module_should_import, hsplit,
      shouldImportAux_all_good m ((splitDots s).take k) [] hgood,
      List.nil_append]
  · intro env self module_to_import m name rest attribute_module hattr hshould
    simp only [processAliases, hattr, hshould]
    rw [if_neg (by simp)]

/-- C3 witness: the amended theorem at concrete inputs: idempotence at
(`pkg.other`, `pkg.sub._impl`), and no warning for importing `K` from
`pkg.sub` when its defining module `pkg.sub._impl` canonicalizes to
`pkg.sub` for a checker working in `pkg`. -/
theorem c3_canonical_amended_witness :
    get_module_should_import "pkg.other"
        (get_module_should_import "pkg.other" "pkg.sub._impl")
      = get_module_should_import "pkg.other" "pkg.sub._impl" ∧
    processAliases c3PyEnv ⟨"pkg", "pkg", none⟩ "pkg.sub"
        ⟨[("K", Attr.classOrCallable "pkg.sub._impl")]⟩ ["K"]
      = processAliases c3PyEnv ⟨"pkg", "pkg", none⟩ "pkg.sub"
        ⟨[("K", Attr.classOrCallable "pkg.sub._impl")]⟩ [] :=
  ⟨c3_canonical_amended.1 "pkg.other" "pkg.sub._impl",
   c3_canonical_amended.2 c3PyEnv ⟨"pkg", "pkg", none⟩ "pkg.sub"
     ⟨[("K", Attr.classOrCallable "pkg.sub._impl")]⟩ "K" []
     "pkg.sub._impl" (by decide) (by decide)⟩

/-- C4 (confirmed): every `ImportFrom` node with relative level ≥ 2
makes `visit_ImportFrom` raise `ValueError`, whatever the node's source
module or aliases; the result does not depend on the import environment,
so no module resolution or loading is attempted. -/
theorem c4_relative_level_policy (env : PyEnv) (self : Checker)
    (node : ImportFromNode) (h : 2 ≤ node.level) :
    visit_ImportFrom env self node = VisitResult.valueError := by
  rw [visit_ImportFrom, if_pos h]

/-- C4 witness: `from ...sibling import X` (level 2) raises even in an
environment where nothing can be imported. -/
theorem c4_relative_level_policy_witness :
    2 ≤ (2 : Nat) ∧
    visit_ImportFrom ⟨fun _ => none⟩ ⟨"pkg", "pkg", none⟩
        ⟨2, some "sibling", ["X"]⟩ = VisitResult.valueError :=
  ⟨by decide,
   c4_relative_level_policy ⟨fun _ => none⟩ ⟨"pkg", "pkg", none⟩
     ⟨2, some "sibling", ["X"]⟩ (by decide)⟩

/-- C5 (confirmed): when loading the resolved module fails with
`ModuleNotFoundError`, `visit_ImportFrom` returns silently
(`ignoredMissing`) if and only if some entry of the ignore-list is a
string prefix of the resolved module name (`none` counts as the empty
list); otherwise the failure is re-raised with that module name. -/
theorem c5_ignore_list_skip (env : PyEnv) (self : Checker)
    (node : ImportFromNode) (module_to_import : String)
    (hlevel : node.level < 2)
    (hres : resolveModuleToImport self node = some module_to_import)
    (hscope : startswithStr module_to_import self._top_level_module = true)
    (hmissing : env.import_module module_to_import = none) :
    (visit_ImportFrom env self node = VisitResult.ignoredMissing ↔
      ∃ p ∈ self._module_list_to_ignore_not_found.getD [],
        startswithStr module_to_import p = true) ∧
    (visit_ImportFrom env self node ≠ VisitResult.ignoredMissing →
      visit_ImportFrom env self node
        = VisitResult.raised [] module_to_import) := by
  rw [visit_eq_loadAndCheck env self node module_to_import hlevel hres hscope]
  rcases hig : self._module_list_to_ignore_not_found with _ | lst
  · simp only [loadAndCheck, hmissing, hig]
    exact ⟨by simp, by simp⟩
  · simp only [loadAndCheck, hmissing, hig, Option.getD_some]
    by_cases hany : (lst.any fun p => startswithStr module_to_import p) = true
    · rw [if_pos hany]
      refine ⟨?_, fun hne => absurd rfl hne⟩
      simpa [List.any_eq_true] using hany
    · rw [if_neg hany]
      refine ⟨?_, fun _ => rfl⟩
      constructor
      · intro h
        simp at h
      · intro hex
        exact absurd (by simpa [List.any_eq_true] using hex) hany

/-- C5 witness: `from pkg.optional.extra import X` with
ignore-list `["pkg.optional"]` is silently skipped when the module
cannot be loaded. -/
theorem c5_ignore_list_skip_witness :
    ((0 : Nat) < 2 ∧
     resolveModuleToImport ⟨"pkg", "pkg", some ["pkg.optional"]⟩
        ⟨0, some "pkg.optional.extra", ["X"]⟩ = some "pkg.optional.extra" ∧
     startswithStr "pkg.optional.extra" "pkg" = true ∧
     c5PyEnv.import_module "pkg.optional.extra" = none) ∧
    ((visit_ImportFrom c5PyEnv ⟨"pkg", "pkg", some ["pkg.optional"]⟩
        ⟨0, some "pkg.optional.extra", ["X"]⟩ = VisitResult.ignoredMissing ↔
      ∃ p ∈ (Checker.mk "pkg" "pkg"
          (some ["pkg.optional"]))._module_list_to_ignore_not_found.getD [],
        startswithStr "pkg.optional.extra" p = true) ∧
     (visit_ImportFrom c5PyEnv ⟨"pkg", "pkg", some ["pkg.optional"]⟩
        ⟨0, some "pkg.optional.extra", ["X"]⟩ ≠ VisitResult.ignoredMissing →
      visit_ImportFrom c5PyEnv ⟨"pkg", "pkg", some ["pkg.optional"]⟩
        ⟨0, some "pkg.optional.extra", ["X"]⟩
        = VisitResult.raised [] "pkg.optional.extra")) :=
  ⟨⟨by decide, by decide, by decide, rfl⟩,
   c5_ignore_list_skip c5PyEnv ⟨"pkg", "pkg", some ["pkg.optional"]⟩
     ⟨0, some "pkg.optional.extra", ["X"]⟩ "pkg.optional.extra"
     (by decide) (by decide) (by decide) rfl⟩

/-- C6 (as stated, refuted): the wildcard alias is skipped only when it
is not found as an attribute of the loaded module.  A module carrying an
attribute literally named `*` (a class defined elsewhere) makes the
visit emit a ProvenanceMismatch warning whose alias name is `*`. -/
theorem c6_wildcard_counterexample :
    getattr ⟨[("*", Attr.classOrCallable "pkg.other")]⟩ "*"
        = some (Attr.classOrCallable "pkg.other") ∧
    visit_ImportFrom c6PyEnv (ImportFromSourceChecker c6FsEnv "pkg.user" none)
        ⟨0, some "pkg.mod", ["*"]⟩
      = VisitResult.ok [⟨"*", "pkg.mod", "pkg.other"⟩] := by decide

/-- C6 (amended): whenever the loaded module has no attribute literally
named `*` (always the case for ordinary Python modules), the wildcard
alias contributes nothing to the alias loop: it is skipped with no
attribute-lookup failure, no submodule import, and no warning. -/
theorem c6_wildcard_amended (env : PyEnv) (self : Checker)
    (module_to_import : String) (m : PyModule) (rest : List String)
    (hstar : getattr m "*" = none) :
    processAliases env self module_to_import m ("*" :: rest)
      = processAliases env self module_to_import m rest := by
  simp [processAliases, hstar]

/-- C6 witness: the amended theorem on a module without a `*`
attribute. -/
theorem c6_wildcard_amended_witness :
    getattr ⟨[("X", Attr.other)]⟩ "*" = none ∧
    processAliases c6PyEnv ⟨"pkg", "pkg", none⟩ "pkg.mod"
        ⟨[("X", Attr.other)]⟩ ["*"]
      = processAliases c6PyEnv ⟨"pkg", "pkg", none⟩ "pkg.mod"
        ⟨[("X", Attr.other)]⟩ [] :=
  ⟨by decide,
   c6_wildcard_amended c6PyEnv ⟨"pkg", "pkg", none⟩ "pkg.mod"
     ⟨[("X", Attr.other)]⟩ [] (by decide)⟩

/-- C7 (confirmed): with `packages_only=True` the enumerator's output is
exactly the package-filtered list of all nodes reachable through
package-child edges (so every package reachable through package-to-
package paths, including past non-package siblings, is discovered and
yielded), and in particular every yielded name resolves to a spec that
is a package. -/
theorem c7_packages_only (env : RecEnv) (fuel : Nat) (n : String)
    (it : Bool) :
    recurse_modules env fuel n it true
      = (reachableViaPackages env fuel n it).filterMap packageYield ∧
    ∀ m ∈ recurse_modules env fuel n it true,
      ∃ s, env.find_spec m = some s ∧ is_package s = true := by
  refine ⟨recurse_modules_packages_only_eq env fuel n it, ?_⟩
  intro m hm
  rw [recurse_modules_packages_only_eq env fuel n it] at hm
  rcases List.mem_filterMap.mp hm with ⟨p, hp, hpy⟩
  have hsp := reachableViaPackages_find_spec env fuel n it p hp
  rcases p with ⟨name, _ | s⟩
  · simp [packageYield] at hpy
  · by_cases hpk : is_package s = true
    · have hname : name = m := by simpa [packageYield, hpk] using hpy
      refine ⟨s, ?_, hpk⟩
      rw [← hname, ← hsp]
    · simp [packageYield, hpk] at hpy

/-- C7 witness: in `c7Env` the package `pkg.sub` is listed after the
non-package sibling `util.py`, and `packages_only=True` yields it with a
package spec. -/
theorem c7_packages_only_witness :
    "pkg.sub" ∈ recurse_modules c7Env 2 "pkg" false true ∧
    ∃ s, c7Env.find_spec "pkg.sub" = some s ∧ is_package s = true :=
  ⟨by decide,
   (c7_packages_only c7Env 2 "pkg" false).2 "pkg.sub" (by decide)⟩

/-- C8 (confirmed): when the first alias is not an attribute of the
loaded module and is not `*`, the checker imports
`<resolved-module>.<alias>` directly; if that nested import fails with
`ModuleNotFoundError`, the failure propagates to the caller for every
ignore-list — the nested import is outside the ignore-list handler. -/
theorem c8_nested_import_propagates (env : PyEnv) (self : Checker)
    (node : ImportFromNode) (module_to_import : String) (m : PyModule)
    (name : String) (rest : List String)
    (hlevel : node.level < 2)
    (hres : resolveModuleToImport self node = some module_to_import)
    (hscope : startswithStr module_to_import self._top_level_module = true)
    (hloaded : env.import_module module_to_import = some m)
    (hnames : node.names = name :: rest)
    (hattr : getattr m name = none)
    (hstar : name ≠ "*")
    (hnested : env.import_module (module_to_import ++ "." ++ name) = none) :
    visit_ImportFrom env self node
      = VisitResult.raised [] (module_to_import ++ "." ++ name) := by
  have hpa : processAliases env self module_to_import m (name :: rest)
      = ([], some (module_to_import ++ "." ++ name)) := by
    simp only [processAliases, hattr, hnested]
    rw [if_neg (by simp [hstar])]
  rw [visit_eq_loadAndCheck env self node module_to_import hlevel hres hscope,
    hnames]
  simp only [loadAndCheck, hloaded, hpa]

/-- C8 witness: `from pkg.mod import sub` where `pkg.mod` has no
attribute `sub` and `pkg.mod.sub` cannot be imported raises, although
the ignore-list entry `pkg.mod` is a prefix of the missing name. -/
theorem c8_nested_import_propagates_witness :
    ((0 : Nat) < 2 ∧
     resolveModuleToImport ⟨"pkg", "pkg", some ["pkg.mod"]⟩
        ⟨0, some "pkg.mod", ["sub"]⟩ = some "pkg.mod" ∧
     startswithStr "pkg.mod" "pkg" = true ∧
     c8PyEnv.import_module "pkg.mod" = some ⟨[]⟩ ∧
     getattr ⟨[]⟩ "sub" = none ∧
     "sub" ≠ "*" ∧
     c8PyEnv.import_module ("pkg.mod" ++ "." ++ "sub") = none ∧
     startswithStr ("pkg.mod" ++ "." ++ "sub") "pkg.mod" = true) ∧
    visit_ImportFrom c8PyEnv ⟨"pkg", "pkg", some ["pkg.mod"]⟩
        ⟨0, some "pkg.mod", ["sub"]⟩
      = VisitResult.raised [] ("pkg.mod" ++ "." ++ "sub") :=
  ⟨⟨by decide, by decide, by decide, by decide, by decide, by decide,
    by decide, by decide⟩,
   c8_nested_import_propagates c8PyEnv ⟨"pkg", "pkg", some ["pkg.mod"]⟩
     ⟨0, some "pkg.mod", ["sub"]⟩ "pkg.mod" ⟨[]⟩ "sub" []
     (by decide) (by decide) (by decide) (by decide) (by decide)
     (by decide) (by decide) (by decide)⟩

/-- C9 (confirmed): the scope filter is a raw string-prefix test.  Any
resolved module that starts with the top-level module as a character
prefix — even one that is neither that module nor a dotted descendant of
it — passes the filter, and the checker proceeds to load it. -/
theorem c9_raw_prefix_scope (env : PyEnv) (self : Checker)
    (node : ImportFromNode) (module_to_import : String)
    (hlevel : node.level < 2)
    (hres : resolveModuleToImport self node = some module_to_import)
    (hraw : startswithStr module_to_import self._top_level_module = true)
    (_hneq : module_to_import ≠ self._top_level_module)
    (_hnotdesc : startswithStr module_to_import
      (self._top_level_module ++ ".") = false) :
    visit_ImportFrom env self node
      = loadAndCheck env self module_to_import node.names ∧
    visit_ImportFrom env self node ≠ VisitResult.skipped := by
  have hv := visit_eq_loadAndCheck env self node module_to_import hlevel
    hres hraw
  refine ⟨hv, ?_⟩
  rw [hv]
  exact loadAndCheck_ne_skipped env self module_to_import node.names

/-- C9 witness: a checker for `pkg/user.py` (top-level module `pkg`)
sees `from pkgextra.mod import X`: `pkgextra.mod` is not `pkg` nor under
`pkg.`, but starts with `pkg`, so the statement is not skipped and the
foreign module load is attempted (and fails as `pkgextra.mod` does not
exist). -/
theorem c9_raw_prefix_scope_witness :
    ((0 : Nat) < 2 ∧
     resolveModuleToImport (ImportFromSourceChecker c9FsEnv "pkg.user" none)
        ⟨0, some "pkgextra.mod", ["X"]⟩ = some "pkgextra.mod" ∧
     startswithStr "pkgextra.mod"
        (ImportFromSourceChecker c9FsEnv "pkg.user" none)._top_level_module
        = true ∧
     "pkgextra.mod"
        ≠ (ImportFromSourceChecker c9FsEnv "pkg.user" none)._top_level_module ∧
     startswithStr "pkgextra.mod"
        ((ImportFromSourceChecker c9FsEnv "pkg.user" none)._top_level_module
          ++ ".") = false) ∧
    (visit_ImportFrom c9PyEnv (ImportFromSourceChecker c9FsEnv "pkg.user" none)
        ⟨0, some "pkgextra.mod", ["X"]⟩
      = loadAndCheck c9PyEnv (ImportFromSourceChecker c9FsEnv "pkg.user" none)
          "pkgextra.mod" ["X"] ∧
     visit_ImportFrom c9PyEnv (ImportFromSourceChecker c9FsEnv "pkg.user" none)
        ⟨0, some "pkgextra.mod", ["X"]⟩ ≠ VisitResult.skipped) ∧
    visit_ImportFrom c9PyEnv (ImportFromSourceChecker c9FsEnv "pkg.user" none)
        ⟨0, some "pkgextra.mod", ["X"]⟩
      = VisitResult.raised [] "pkgextra.mod" :=
  ⟨⟨by decide, by decide, by decide, by decide, by decide⟩,
   c9_raw_prefix_scope c9PyEnv (ImportFromSourceChecker c9FsEnv "pkg.user" none)
     ⟨0, some "pkgextra.mod", ["X"]⟩ "pkgextra.mod"
     (by decide) (by decide) (by decide) (by decide) (by decide),
   by decide⟩

/-- C10 (confirmed): constructing the checker for a single-component,
non-package module name gives working module `""` and top-level module
`""`, and every string starts with `""`, so the scope filter admits
every resolvable import statement: the checker proceeds to load modules
entirely outside the analyzed package. -/
theorem c10_single_component_checker (fs : FsEnv) (module : String)
    (ignore : Option (List String))
    (hsingle : splitDots module = [module])
    (hnotpkg : spec_is_package (fs.find_spec module) = false) :
    (ImportFromSourceChecker fs module ignore)._module = "" ∧
    (ImportFromSourceChecker fs module ignore)._top_level_module = "" ∧
    ∀ (env : PyEnv) (node : ImportFromNode) (module_to_import : String),
      node.level < 2 →
      resolveModuleToImport (ImportFromSourceChecker fs module ignore) node
        = some module_to_import →
      visit_ImportFrom env (ImportFromSourceChecker fs module ignore) node
        = loadAndCheck env (ImportFromSourceChecker fs module ignore)
            module_to_import node.names := by
  have hm : (ImportFromSourceChecker fs module ignore)._module = "" := by
    simp [ImportFromSourceChecker, hnotpkg, hsingle, joinDots]
  have ht : (ImportFromSourceChecker fs module ignore)._top_level_module
      = "" := by
    simp only [ImportFromSourceChecker, hnotpkg, hsingle]
    rw [if_neg (by simp)]
    rfl
  refine ⟨hm, ht, ?_⟩
  intro env node module_to_import hlevel hres
  refine visit_eq_loadAndCheck env _ node module_to_import hlevel hres ?_
  rw [ht]
  exact startswithStr_empty module_to_import

/-- C10 witness: a checker for the top-level file module `mod` has empty
working and top-level modules, and `from numpy.linalg import norm` is
not skipped: the foreign load is attempted (and fails here). -/
theorem c10_single_component_checker_witness :
    (splitDots "mod" = ["mod"] ∧
     spec_is_package (c10FsEnv.find_spec "mod") = false) ∧
    (ImportFromSourceChecker c10FsEnv "mod" none)._module = "" ∧
    (ImportFromSourceChecker c10FsEnv "mod" none)._top_level_module = "" ∧
    visit_ImportFrom c10PyEnv (ImportFromSourceChecker c10FsEnv "mod" none)
        ⟨0, some "numpy.linalg", ["norm"]⟩
      = loadAndCheck c10PyEnv (ImportFromSourceChecker c10FsEnv "mod" none)
          "numpy.linalg" ["norm"] ∧
    visit_ImportFrom c10PyEnv (ImportFromSourceChecker c10FsEnv "mod" none)
        ⟨0, some "numpy.linalg", ["norm"]⟩
      = VisitResult.raised [] "numpy.linalg" :=
  ⟨⟨by decide, by decide⟩,
   (c10_single_component_checker c10FsEnv "mod" none (by decide) (by decide)).1,
   (c10_single_component_checker c10FsEnv "mod" none (by decide) (by decide)).2.1,
   (c10_single_component_checker c10FsEnv "mod" none (by decide) (by decide)).2.2
     c10PyEnv ⟨0, some "numpy.linalg", ["norm"]⟩ "numpy.linalg"
     (by decide) (by decide),
   by decide⟩

end Packg
